import Mathlib

/-
Verification of the calendar date-grid engine, the CalendarWidget state
machine, and the SimpleDatabase result contract of the site-demos
repository (src/pages/002/components/calendar-widget.js and
src/pages/002/utils/simple-database.js).

The JavaScript Date objects used by the widget are modelled by their local
calendar components (year, 0-based month index, 1-based day of month),
because every operation the widget performs on dates (setDate, setMonth,
getMonth, getFullYear, getDate, getDay, toLocaleDateString with the en-CA
locale) reads or writes exactly these local calendar components; the
time-of-day component is copied around unchanged and never observed.
Day-of-month normalization (ECMAScript MakeDay: values outside
1..monthLength roll across month and year boundaries in the proleptic
Gregorian calendar) is modelled by stepping one calendar day at a time.
-/

namespace CalendarDemo

/-- Proleptic Gregorian leap-year predicate, as used by ECMAScript
date normalization (DaysInYear). -/
def isLeap (y : Int) : Bool :=
  (y % 4 == 0 && y % 100 != 0) || y % 400 == 0

/-- Number of days in month index m (0 = January .. 11 = December) of
year y, per ECMAScript date normalization. Months outside 0..11 never
arise in normalized dates; the default branch returns 31. -/
def daysInMonth (y : Int) (m : Nat) : Nat :=
  if m = 1 then (if isLeap y then 29 else 28)
  else if m = 3 ∨ m = 5 ∨ m = 8 ∨ m = 10 then 30
  else 31

/-- Local calendar components of a JavaScript Date: getFullYear,
getMonth (0-based month index) and getDate (1-based day of month). -/
structure CalDate where
  year : Int
  month : Nat
  day : Nat
deriving DecidableEq, Repr

/-- A CalDate is normalized (what every real Date object exposes):
month index below 12 and day of month within the month. -/
def ValidDate (d : CalDate) : Prop :=
  d.month < 12 ∧ 1 ≤ d.day ∧ d.day ≤ daysInMonth d.year d.month

instance (d : CalDate) : Decidable (ValidDate d) := by
  unfold ValidDate; exact inferInstance

/-- The calendar day immediately after d (one-day step of ECMAScript
date normalization). -/
def nextDay : CalDate → CalDate
  | ⟨y, m, day⟩ =>
    if day < daysInMonth y m then ⟨y, m, day + 1⟩
    else if m < 11 then ⟨y, m + 1, 1⟩
    else ⟨y + 1, 0, 1⟩

/-- The calendar day immediately before d (one-day step of ECMAScript
date normalization). -/
def prevDay : CalDate → CalDate
  | ⟨y, m, day⟩ =>
    if 1 < day then ⟨y, m, day - 1⟩
    else if 0 < m then ⟨y, m - 1, daysInMonth y (m - 1)⟩
    else ⟨y - 1, 11, 31⟩

/-- Move n calendar days forward from d. -/
def addDays (d : CalDate) : Nat → CalDate
  | 0 => d
  | n + 1 => addDays (nextDay d) n

/-- Move n calendar days backward from d. -/
def subDays (d : CalDate) : Nat → CalDate
  | 0 => d
  | n + 1 => subDays (prevDay d) n

/-- Model of tools.cloneDate(date, \x7b day \x7d): copy the date and call
setDate(day). Per ECMAScript MakeDay, setDate(n) yields the date that is
(n - 1) calendar days after the first day of the month of the receiver,
with day values outside 1..monthLength normalizing across month and year
boundaries. The year and month of the argument are read; its day is
discarded. -/
def cloneDateDay (d : CalDate) (day : Int) : CalDate :=
  if 1 ≤ day then addDays ⟨d.year, d.month, 1⟩ (day - 1).toNat
  else subDays ⟨d.year, d.month, 1⟩ (1 - day).toNat

/-- Month-offset table of the Sakamoto weekday formula, indexed by the
0-based month index. -/
def monthTable (m : Nat) : Int :=
  match m with
  | 0 => 0 | 1 => 3 | 2 => 2 | 3 => 5 | 4 => 0 | 5 => 3
  | 6 => 5 | 7 => 1 | 8 => 4 | 9 => 6 | 10 => 2 | _ => 4

/-- Year used by the Sakamoto weekday formula: January and February
count as part of the previous year. -/
def sakYear (d : CalDate) : Int :=
  if d.month < 2 then d.year - 1 else d.year

/-- Model of Date.prototype.getDay: weekday of the local date, with
0 = Sunday, 1 = Monday, ..., 6 = Saturday, computed by the Sakamoto
formula over the proleptic Gregorian calendar. -/
def getDay (d : CalDate) : Nat :=
  ((sakYear d + sakYear d / 4 - sakYear d / 100
    + sakYear d / 400 + monthTable d.month + (d.day : Int)) % 7).toNat

/-- Model of tools.isSameDate: the two dates agree on getFullYear,
getMonth and getDate. -/
def isSameDate (d1 d2 : CalDate) : Bool :=
  d1.year == d2.year && d1.month == d2.month && d1.day == d2.day

/-- Zero-pad a natural number to two digits. -/
def pad2 (n : Nat) : String :=
  if n < 10 then "0" ++ toString n else toString n

/-- Zero-pad a natural number to four digits. -/
def pad4 (n : Nat) : String :=
  if n < 10 then "000" ++ toString n
  else if n < 100 then "00" ++ toString n
  else if n < 1000 then "0" ++ toString n
  else toString n

/-- Model of tools.toShort: date.toLocaleDateString with the en-CA
locale formats the LOCAL calendar components as a zero-padded
YYYY-MM-DD string (modelled for common-era years; the month index is
printed 1-based). -/
def toShort (d : CalDate) : String :=
  pad4 d.year.toNat ++ "-" ++ pad2 (d.month + 1) ++ "-" ++ pad2 d.day

/-- Model of tools.getDateArray: build the 42-cell (6 rows of 7 days)
calendar grid for the month of the given date, starting on a Monday.
Mirrors the source: firstDate is the receiver with setDate(1); the loop
pushes cloneDate(firstDate, \x7b day \x7d) for day from
1 - mondayIndex to 1 - mondayIndex + 41. -/
def getDateArray (date : CalDate) : List CalDate :=
  let firstDate := cloneDateDay date 1
  let firstIndex := getDay firstDate
  let mondayIndex := (firstIndex + 6) % 7
  let start : Int := 1 - (mondayIndex : Int)
  (List.range 42).map (fun i : Nat => cloneDateDay firstDate (start + i))

/-- Monday-based offset of the first day of the month of d, as computed
by getDateArray: (firstDate.getDay() + 6) % 7. -/
def mondayOffset (d : CalDate) : Nat :=
  (getDay (cloneDateDay d 1) + 6) % 7

/-- Day argument passed to cloneDate for grid index 0, as computed by
getDateArray: 1 - mondayOffset. -/
def gridStart (d : CalDate) : Int :=
  1 - (mondayOffset d : Int)

/-- Year and month index of the month before month m of year y. -/
def prevMonthOf (y : Int) (m : Nat) : Int × Nat :=
  if 0 < m then (y, m - 1) else (y - 1, 11)

/-- Year and month index of the month after month m of year y. -/
def nextMonthOf (y : Int) (m : Nat) : Int × Nat :=
  if m < 11 then (y, m + 1) else (y + 1, 0)

/-- Default cell used with List.getD when reading grid positions. -/
def dummyDate : CalDate := ⟨0, 0, 1⟩

-- ======================================================
-- CalendarWidget rendering and state machine
-- ======================================================

/-- The visual classification a day cell receives in
CalendarWidget.updateCalendar; plain means no class is added. -/
inductive DayClass where
  | dimmed
  | today
  | marked
  | starred
  | plain
deriving DecidableEq, Repr

/-- Classification of one day cell, mirroring the if-else-if chain of
updateCalendar: dimmed when the cell month index differs from the anchor
month index, else today when the cell equals the current date sampled at
render time (tools.isToday), else marked when it equals the chosen date,
else starred when its short key is in starredDates (shouldStar), else
nothing. -/
def classifyDay (anchor now chosen : CalDate) (starredDates : List String)
    (cell : CalDate) : DayClass :=
  if cell.month ≠ anchor.month then DayClass.dimmed
  else if isSameDate cell now then DayClass.today
  else if isSameDate cell chosen then DayClass.marked
  else if starredDates.contains (toShort cell) then DayClass.starred
  else DayClass.plain

/-- The four state classes managed by resetDayClasses. -/
def managedClasses : List String := ["dimmed", "marked", "starred", "today"]

/-- Model of CalendarWidget.resetDayClasses: classList.remove of the four
managed state classes, leaving any other classes on the element alone. -/
def resetDayClasses (classes : List String) : List String :=
  classes.filter (fun c => ! managedClasses.contains c)

/-- The class-name tokens a classification adds to a cell. -/
def classToken : DayClass → List String
  | DayClass.dimmed => ["dimmed"]
  | DayClass.today => ["today"]
  | DayClass.marked => ["marked"]
  | DayClass.starred => ["starred"]
  | DayClass.plain => []

/-- Per-cell class-list update performed by updateCalendar: reset the
managed classes, then add the first-matching classification. -/
def updateDayClasses (prev : List String) (cls : DayClass) : List String :=
  resetDayClasses prev ++ classToken cls

/-- Model of the per-render output of updateCalendar(anchor): the
42 grid dates paired with their classification, where now is the current
date sampled during the render and chosen is the widget's dateChosen. -/
def renderGrid (anchor now chosen : CalDate) (starredDates : List String) :
    List (CalDate × DayClass) :=
  (getDateArray anchor).map
    (fun c => (c, classifyDay anchor now chosen starredDates c))

/-- Grid cell at position i of the calendar rendered from the given
anchor. -/
def gridCellAt (anchor : CalDate) (i : Nat) : CalDate :=
  (getDateArray anchor).getD i dummyDate

/-- Classification that updateCalendar assigns to grid cell i. -/
def cellClassAt (anchor now chosen : CalDate) (starredDates : List String)
    (i : Nat) : DayClass :=
  classifyDay anchor now chosen starredDates (gridCellAt anchor i)

/-- Observable state of a CalendarWidget instance: dateChosen,
dateToday (construction-time snapshot), dateDisplayed (month anchor used
by navigateMonth), the anchor from which the grid was last rendered
(the argument of the last updateCalendar call), the starredDates array,
and whether a host onDayClick callback is registered. -/
structure WidgetState where
  dateChosen : CalDate
  dateToday : CalDate
  dateDisplayed : CalDate
  renderedAnchor : CalDate
  starredDates : List String
  hasOnDayClick : Bool
deriving DecidableEq, Repr

/-- Local calendar date obtained from new Date(s) where s is the
YYYY-MM-DD key of the date d. ECMAScript parses a date-only string as
midnight UTC, so in an environment whose UTC offset is tz minutes
(-1440 < tz < 1440) the LOCAL calendar date of that instant is d itself
when tz is nonnegative and the day before d when tz is negative. -/
def jsParseLocalDate (tz : Int) (d : CalDate) : CalDate :=
  if tz < 0 then prevDay d else d

/-- Model of Date.prototype.setMonth(mval) (ECMAScript MakeDay): the
month value is normalized into year plus month index 0..11 with floor
division, the day-of-month is kept and then normalized, overflowing into
the following month when it exceeds the target month length. -/
def jsSetMonth (dt : CalDate) (mval : Int) : CalDate :=
  cloneDateDay ⟨dt.year + mval / 12, (mval % 12).toNat, 1⟩ (dt.day : Int)

/-- Model of CalendarWidget.navigateMonth(change):
dateDisplayed.setMonth(currentMonth + change) followed by
updateCalendar(dateDisplayed). -/
def navigateMonth (s : WidgetState) (change : Int) : WidgetState :=
  let nd := jsSetMonth s.dateDisplayed ((s.dateDisplayed.month : Int) + change)
  { s with dateDisplayed := nd, renderedAnchor := nd }

/-- Model of the navigator-text click branch of setupListeners:
updateCalendar(this.dateToday); no other field is touched. -/
def handleHeaderClick (s : WidgetState) : WidgetState :=
  { s with renderedAnchor := s.dateToday }

/-- Outcome of one click on a day cell: the new widget state, the dates
passed to the host onDayClick callback during this click, and whether a
delayed re-render was scheduled via setTimeout. -/
structure DayClickResult where
  state : WidgetState
  callbackCalls : List CalDate
  scheduledRender : Bool
deriving DecidableEq, Repr

/-- Model of the day-cell click branch of setupListeners: only when an
onDayClick callback is registered, dateChosen is set to
new Date(element.dataset.date) (the UTC-parsed short key of the cell,
see jsParseLocalDate), the callback is invoked once with it, and a
delayed updateCalendar(dateChosen) is scheduled; otherwise nothing
happens. -/
def handleDayClick (tz : Int) (s : WidgetState) (cellDate : CalDate) : DayClickResult :=
  if s.hasOnDayClick then
    { state := { s with dateChosen := jsParseLocalDate tz cellDate },
      callbackCalls := [jsParseLocalDate tz cellDate],
      scheduledRender := true }
  else
    { state := s, callbackCalls := [], scheduledRender := false }

/-- Model of the setTimeout body scheduled by the day-click handler:
updateCalendar(this.dateChosen), reading dateChosen at fire time. -/
def fireDelayedRender (s : WidgetState) : WidgetState :=
  { s with renderedAnchor := s.dateChosen }

-- ======================================================
-- SimpleDatabase model
-- ======================================================

/-- Whitespace test used to model String.prototype.trim. -/
def isJsSpace (c : Char) : Bool :=
  c == ' ' || c == '\t' || c == '\n' || c == '\r'

/-- Model of String.prototype.trim: strip leading and trailing
whitespace. -/
def jsTrim (s : String) : String :=
  String.mk (((s.data.dropWhile isJsSpace).reverse.dropWhile isJsSpace).reverse)

/-- Model of the validString helper of simple-database.js: every
argument must be a string (guaranteed by typing here) whose trim is
non-empty. -/
def validString (args : List String) : Bool :=
  args.all (fun s => jsTrim s != "")

/-- The uniform result shape of SimpleDatabase operations:
success flag, optional data, optional human-readable message, and the
name of the underlying error object when one was attached. -/
structure DBResult where
  success : Bool
  data : Option String := none
  message : Option String := none
  errorName : Option String := none
deriving DecidableEq, Repr

/-- Which IndexedDB event fires for the request/transaction backing one
operation: onsuccess, request onerror (with the error name), transaction
onerror, or transaction onabort. -/
inductive IDBOutcome where
  | ok
  | requestError (name : String)
  | txError (name : String)
  | txAbort
deriving DecidableEq, Repr

/-- State of a SimpleDatabase instance: the linked store (the _db field;
none models _db = null) holding the key-value records of the single
default object store. -/
structure SimpleDatabase where
  db : Option (List (String × String))
deriving DecidableEq, Repr

/-- IndexedDB put with an explicit key: overwrite the record at that key
or add a new one. -/
def dbPut (store : List (String × String)) (key value : String) :
    List (String × String) :=
  (key, value) :: store.filter (fun p => p.1 != key)

/-- IndexedDB get: the record stored at the key, if any. -/
def dbGet (store : List (String × String)) (key : String) : Option String :=
  (store.find? (fun p => p.1 == key)).map Prod.snd

/-- Model of SimpleDatabase.save(key, value): resolves (never rejects)
with a failure result when the database is not linked or an argument
fails validString, otherwise performs the put and resolves according to
which IndexedDB event fires. Error messages follow the source template
literals, with error.name = Error for the abort branch. -/
def SimpleDatabase.save (sdb : SimpleDatabase) (key value : String)
    (outcome : IDBOutcome) : SimpleDatabase × DBResult :=
  match sdb.db with
  | none => (sdb, { success := false, message := some "Database not currently linked" })
  | some store =>
    if ! validString [key, value] then
      (sdb, { success := false, message := some "Expected a non-empty string" })
    else
      match outcome with
      | IDBOutcome.ok =>
          (⟨some (dbPut store key value)⟩, { success := true })
      | IDBOutcome.requestError n =>
          (sdb, { success := false,
                  message := some ("Error in the saving process: " ++ n),
                  errorName := some n })
      | IDBOutcome.txError n =>
          (sdb, { success := false,
                  message := some ("Error in the saving process: " ++ n),
                  errorName := some n })
      | IDBOutcome.txAbort =>
          (sdb, { success := false,
                  message := some "Error in the saving process: Error",
                  errorName := some "Error" })

/-- Model of SimpleDatabase.load(key): resolves (never rejects) with a
failure result when the database is not linked or the key fails
validString; on a successful get it resolves with the data, or with the
message Data was nullish when no record exists; storage errors resolve
according to which IndexedDB event fires. -/
def SimpleDatabase.load (sdb : SimpleDatabase) (key : String)
    (outcome : IDBOutcome) : SimpleDatabase × DBResult :=
  match sdb.db with
  | none => (sdb, { success := false, message := some "Database not currently linked" })
  | some store =>
    if ! validString [key] then
      (sdb, { success := false, message := some "Expected a non-empty string" })
    else
      match outcome with
      | IDBOutcome.ok =>
          match dbGet store key with
          | some v => (sdb, { success := true, data := some v })
          | none => (sdb, { success := false, message := some "Data was nullish" })
      | IDBOutcome.requestError n =>
          (sdb, { success := false,
                  message := some ("Error in the loading process: " ++ n),
                  errorName := some n })
      | IDBOutcome.txError n =>
          (sdb, { success := false,
                  message := some ("Error in the loading process: " ++ n),
                  errorName := some n })
      | IDBOutcome.txAbort =>
          (sdb, { success := false,
                  message := some "Error in the loading process: Error",
                  errorName := some "Error" })

-- ======================================================
-- Basic facts about the calendar model
-- ======================================================

/-- Every month of every year has between 28 and 31 days. -/
theorem daysInMonth_bounds (y : Int) (m : Nat) :
    28 ≤ daysInMonth y m ∧ daysInMonth y m ≤ 31 := by
  unfold daysInMonth
  split_ifs <;> omega

/-- December always has 31 days. -/
theorem daysInMonth_dec (y : Int) : daysInMonth y 11 = 31 := by
  simp [daysInMonth]

/-- The weekday index produced by getDay is below 7. -/
theorem getDay_lt (d : CalDate) : getDay d < 7 := by
  unfold getDay
  generalize (sakYear d + sakYear d / 4 - sakYear d / 100
    + sakYear d / 400 + monthTable d.month + (d.day : Int)) = e
  omega

/-- Stepping forward one day preserves normalization. -/
theorem nextDay_valid (d : CalDate) (h : ValidDate d) : ValidDate (nextDay d) := by
  obtain ⟨y, m, day⟩ := d
  obtain ⟨hm, hd1, hd2⟩ := h
  simp only at hm hd1 hd2
  have hb1 := daysInMonth_bounds y (m + 1)
  have hb2 := daysInMonth_bounds (y + 1) 0
  simp only [ValidDate, nextDay]
  split_ifs <;> dsimp only <;> omega

/-- Stepping backward one day preserves normalization. -/
theorem prevDay_valid (d : CalDate) (h : ValidDate d) : ValidDate (prevDay d) := by
  obtain ⟨y, m, day⟩ := d
  obtain ⟨hm, hd1, hd2⟩ := h
  simp only at hm hd1 hd2
  have hb1 := daysInMonth_bounds y (m - 1)
  have h31 : daysInMonth (y - 1) 11 = 31 := daysInMonth_dec (y - 1)
  simp only [ValidDate, prevDay]
  split_ifs <;> dsimp only <;> omega

/-- Moving forward n days preserves normalization. -/
theorem addDays_valid (n : Nat) : ∀ d : CalDate, ValidDate d → ValidDate (addDays d n) := by
  induction n with
  | zero => intro d h; exact h
  | succ k ih => intro d h; exact ih (nextDay d) (nextDay_valid d h)

/-- Moving backward n days preserves normalization. -/
theorem subDays_valid (n : Nat) : ∀ d : CalDate, ValidDate d → ValidDate (subDays d n) := by
  induction n with
  | zero => intro d h; exact h
  | succ k ih => intro d h; exact ih (prevDay d) (prevDay_valid d h)

/-- Unfolding addDays from the right. -/
theorem addDays_succ_right (n : Nat) :
    ∀ d : CalDate, addDays d (n + 1) = nextDay (addDays d n) := by
  induction n with
  | zero => intro d; rfl
  | succ k ih =>
    intro d
    show addDays (nextDay d) (k + 1) = nextDay (addDays (nextDay d) k)
    exact ih (nextDay d)

/-- Unfolding subDays from the right. -/
theorem subDays_succ_right (n : Nat) :
    ∀ d : CalDate, subDays d (n + 1) = prevDay (subDays d n) := by
  induction n with
  | zero => intro d; rfl
  | succ k ih =>
    intro d
    show subDays (prevDay d) (k + 1) = prevDay (subDays (prevDay d) k)
    exact ih (prevDay d)

/-- addDays splits over addition of the day counts. -/
theorem addDays_add (d : CalDate) (a : Nat) :
    ∀ b : Nat, addDays d (a + b) = addDays (addDays d a) b := by
  intro b
  induction b with
  | zero => rfl
  | succ k ih =>
    rw [Nat.add_succ, addDays_succ_right, ih, ← addDays_succ_right]

/-- Stepping forward after stepping backward returns to a normalized
date. -/
theorem nextDay_prevDay (d : CalDate) (h : ValidDate d) : nextDay (prevDay d) = d := by
  obtain ⟨y, m, day⟩ := d
  obtain ⟨hm, hd1, hd2⟩ := h
  simp only at hm hd1 hd2
  have h31 := daysInMonth_dec (y - 1)
  have hb := daysInMonth_bounds y (m - 1)
  simp only [prevDay]
  split_ifs with h1 h2 <;>
    (simp only [nextDay]; split_ifs <;>
      (simp only [CalDate.mk.injEq, eq_self_iff_true, true_and, and_true]
       try omega))

/-- A leap year is exactly a year divisible by 4 and not by 100, or
divisible by 400. -/
theorem isLeap_iff (y : Int) :
    isLeap y = true ↔ ((y % 4 = 0 ∧ ¬ y % 100 = 0) ∨ y % 400 = 0) := by
  simp [isLeap]

/-- The first day of any month is a normalized date. -/
theorem firstOfMonth_valid (y : Int) (m : Nat) (hm : m < 12) :
    ValidDate (⟨y, m, 1⟩ : CalDate) := by
  have hb := daysInMonth_bounds y m
  simp only [ValidDate]
  exact ⟨hm, by omega, by omega⟩

/-- Floor-division by 4 steps by one exactly at multiples of 4. -/
theorem div4_step (y : Int) : y / 4 - (y - 1) / 4 = (if y % 4 = 0 then 1 else 0) := by
  split_ifs <;> omega

/-- Floor-division by 100 steps by one exactly at multiples of 100. -/
theorem div100_step (y : Int) : y / 100 - (y - 1) / 100 = (if y % 100 = 0 then 1 else 0) := by
  split_ifs <;> omega

/-- Floor-division by 400 steps by one exactly at multiples of 400. -/
theorem div400_step (y : Int) : y / 400 - (y - 1) / 400 = (if y % 400 = 0 then 1 else 0) := by
  split_ifs <;> omega

/-- Within a month, addDays just advances the day-of-month. -/
theorem addDays_in_month (y : Int) (m : Nat) (n : Nat) :
    ∀ day : Nat, 1 ≤ day → day + n ≤ daysInMonth y m →
      addDays ⟨y, m, day⟩ n = ⟨y, m, day + n⟩ := by
  induction n with
  | zero => intro day h1 h2; rfl
  | succ k ih =>
    intro day h1 h2
    have hstep : nextDay ⟨y, m, day⟩ = ⟨y, m, day + 1⟩ := by
      simp only [nextDay]
      rw [if_pos (by omega)]
    show addDays (nextDay ⟨y, m, day⟩) k = _
    rw [hstep, ih (day + 1) (by omega) (by omega)]
    simp only [CalDate.mk.injEq, eq_self_iff_true, true_and, and_true]
    omega

/-- Within a month, subDays just decreases the day-of-month. -/
theorem subDays_in_month (y : Int) (m : Nat) (n : Nat) :
    ∀ day : Nat, n < day → subDays ⟨y, m, day⟩ n = ⟨y, m, day - n⟩ := by
  induction n with
  | zero => intro day h; rfl
  | succ k ih =>
    intro day h
    have hstep : prevDay ⟨y, m, day⟩ = ⟨y, m, day - 1⟩ := by
      simp only [prevDay]
      rw [if_pos (by omega)]
    show subDays (prevDay ⟨y, m, day⟩) k = _
    rw [hstep, ih (day - 1) (by omega)]
    simp only [CalDate.mk.injEq, eq_self_iff_true, true_and, and_true]
    omega

/-- Stepping forward from the last day of a month reaches the first day
of the next month. -/
theorem nextDay_endOfMonth (y : Int) (m : Nat) :
    nextDay ⟨y, m, daysInMonth y m⟩
      = ⟨(nextMonthOf y m).1, (nextMonthOf y m).2, 1⟩ := by
  simp only [nextDay]
  rw [if_neg (by omega)]
  by_cases h : m < 11
  · rw [if_pos h]; simp [nextMonthOf, h]
  · rw [if_neg h]; simp [nextMonthOf, h]

/-- Stepping backward from the first day of a month reaches the last
day of the previous month. -/
theorem prevDay_firstOfMonth (y : Int) (m : Nat) :
    prevDay ⟨y, m, 1⟩
      = ⟨(prevMonthOf y m).1, (prevMonthOf y m).2,
          daysInMonth (prevMonthOf y m).1 (prevMonthOf y m).2⟩ := by
  simp only [prevDay]
  rw [if_neg (by omega)]
  by_cases h : 0 < m
  · rw [if_pos h]; simp [prevMonthOf, h]
  · rw [if_neg h]; simp [prevMonthOf, h, daysInMonth_dec]

/-- Day arguments within 1..monthLength land inside the anchor month. -/
theorem cloneDateDay_mid (d : CalDate) (off : Int)
    (h1 : 1 ≤ off) (h2 : off ≤ daysInMonth d.year d.month) :
    cloneDateDay d off = ⟨d.year, d.month, off.toNat⟩ := by
  unfold cloneDateDay
  rw [if_pos h1]
  rw [addDays_in_month d.year d.month _ 1 (by omega) (by omega)]
  simp only [CalDate.mk.injEq, eq_self_iff_true, true_and, and_true]
  omega

/-- Day arguments beyond the month length land in the following month. -/
theorem cloneDateDay_next (d : CalDate) (off : Int)
    (h1 : (daysInMonth d.year d.month : Int) < off)
    (h2 : off ≤ (daysInMonth d.year d.month : Int) + 28) :
    cloneDateDay d off
      = ⟨(nextMonthOf d.year d.month).1, (nextMonthOf d.year d.month).2,
          (off - (daysInMonth d.year d.month : Int)).toNat⟩ := by
  have hb := daysInMonth_bounds d.year d.month
  have hb2 := daysInMonth_bounds (nextMonthOf d.year d.month).1 (nextMonthOf d.year d.month).2
  unfold cloneDateDay
  rw [if_pos (by omega)]
  have hk : (off - 1).toNat
      = (daysInMonth d.year d.month - 1) + (off - (daysInMonth d.year d.month : Int)).toNat := by
    omega
  rw [hk, addDays_add]
  rw [addDays_in_month d.year d.month _ 1 (by omega) (by omega)]
  have hone : 1 + (daysInMonth d.year d.month - 1) = daysInMonth d.year d.month := by omega
  rw [hone]
  obtain ⟨j, hj⟩ : ∃ j, (off - (daysInMonth d.year d.month : Int)).toNat = j + 1 :=
    ⟨(off - (daysInMonth d.year d.month : Int)).toNat - 1, by omega⟩
  rw [hj]
  show addDays (nextDay ⟨d.year, d.month, daysInMonth d.year d.month⟩) j = _
  rw [nextDay_endOfMonth]
  rw [addDays_in_month _ _ _ 1 (by omega) (by omega)]
  simp only [CalDate.mk.injEq, eq_self_iff_true, true_and, and_true]
  omega

/-- Day arguments at most 0 land in the previous month. -/
theorem cloneDateDay_prev (d : CalDate) (off : Int)
    (h1 : -27 ≤ off) (h2 : off ≤ 0) :
    cloneDateDay d off
      = ⟨(prevMonthOf d.year d.month).1, (prevMonthOf d.year d.month).2,
          ((daysInMonth (prevMonthOf d.year d.month).1 (prevMonthOf d.year d.month).2 : Int)
            + off).toNat⟩ := by
  have hb := daysInMonth_bounds (prevMonthOf d.year d.month).1 (prevMonthOf d.year d.month).2
  unfold cloneDateDay
  rw [if_neg (by omega)]
  obtain ⟨k, hk, hk2⟩ : ∃ k, (1 - off).toNat = k + 1 ∧ k = (-off).toNat :=
    ⟨(-off).toNat, by omega, rfl⟩
  rw [hk]
  show subDays (prevDay ⟨d.year, d.month, 1⟩) k = _
  rw [prevDay_firstOfMonth]
  rw [subDays_in_month _ _ _ _ (by omega)]
  simp only [CalDate.mk.injEq, eq_self_iff_true, true_and, and_true]
  omega

/-- One day forward in cloneDateDay terms: increasing the day argument
by one steps the result one calendar day forward. -/
theorem cloneDateDay_succ (d : CalDate) (hm : d.month < 12) (off : Int) :
    cloneDateDay d (off + 1) = nextDay (cloneDateDay d off) := by
  have hv := firstOfMonth_valid d.year d.month hm
  unfold cloneDateDay
  rcases le_or_lt 1 off with hpos | hlt
  · rw [if_pos (by omega), if_pos (by omega)]
    have h1 : (off + 1 - 1).toNat = (off - 1).toNat + 1 := by omega
    rw [h1, addDays_succ_right]
  · rcases le_or_lt off 0 with hle | hgt
    · rcases eq_or_lt_of_le hle with rfl | hneg
      · rw [if_pos (by omega), if_neg (by omega)]
        have h1 : ((1 : Int) - 0).toNat = 1 := by omega
        rw [h1]
        show _ = nextDay (prevDay ⟨d.year, d.month, 1⟩)
        rw [nextDay_prevDay _ hv]
        rfl
      · rw [if_neg (by omega), if_neg (by omega)]
        have h1 : (1 - off).toNat = (1 - (off + 1)).toNat + 1 := by omega
        rw [h1, subDays_succ_right]
        rw [nextDay_prevDay _ (subDays_valid _ _ hv)]
    · omega

set_option maxHeartbeats 1600000 in
/-- Weekday advances by one (mod 7) when stepping one day forward. -/
theorem getDay_nextDay (d : CalDate) (h : ValidDate d) :
    getDay (nextDay d) = (getDay d + 1) % 7 := by
  obtain ⟨y, m, day⟩ := d
  obtain ⟨hm, hd1, hd2⟩ := h
  simp only at hm hd1 hd2
  rcases Nat.lt_or_ge day (daysInMonth y m) with hlt | hge
  · have hstep : nextDay ⟨y, m, day⟩ = ⟨y, m, day + 1⟩ := by
      simp only [nextDay]
      rw [if_pos hlt]
    rw [hstep]
    simp only [getDay, sakYear]
    try dsimp only
    generalize (if m < 2 then y - 1 else y) = Y
    omega
  · have hday : day = daysInMonth y m := by omega
    subst hday
    rw [nextDay_endOfMonth]
    have e4 := div4_step y
    have e100 := div100_step y
    have e400 := div400_step y
    by_cases hFeb : m = 1
    · subst hFeb
      cases hL : isLeap y with
      | false =>
        have hnl : ¬((y % 4 = 0 ∧ ¬ y % 100 = 0) ∨ y % 400 = 0) := by
          intro hc
          have h2 := (isLeap_iff y).mpr hc
          rw [hL] at h2
          exact Bool.noConfusion h2
        have hn400 : ¬ y % 400 = 0 := fun hc => hnl (Or.inr hc)
        simp [hn400] at e400
        by_cases h4 : y % 4 = 0
        · have h100 : y % 100 = 0 := by
            by_contra hc
            exact hnl (Or.inl ⟨h4, hc⟩)
          simp [h4] at e4
          simp [h100] at e100
          simp [getDay, sakYear, monthTable, nextMonthOf, daysInMonth, hL]
          omega
        · have h100 : ¬ y % 100 = 0 := by omega
          simp [h4] at e4
          simp [h100] at e100
          simp [getDay, sakYear, monthTable, nextMonthOf, daysInMonth, hL]
          omega
      | true =>
        rcases (isLeap_iff y).mp hL with ⟨h4, h100⟩ | h400
        · have h400 : ¬ y % 400 = 0 := by omega
          simp [h4] at e4
          simp [h100] at e100
          simp [h400] at e400
          simp [getDay, sakYear, monthTable, nextMonthOf, daysInMonth, hL]
          omega
        · have h4 : y % 4 = 0 := by omega
          have h100 : y % 100 = 0 := by omega
          simp [h4] at e4
          simp [h100] at e100
          simp [h400] at e400
          simp [getDay, sakYear, monthTable, nextMonthOf, daysInMonth, hL]
          omega
    · interval_cases m <;>
        first
        | (exact absurd rfl hFeb)
        | (simp [getDay, sakYear, monthTable, nextMonthOf, daysInMonth]
           omega)

/-- Weekday advances by n (mod 7) when stepping n days forward. -/
theorem getDay_addDays (n : Nat) :
    ∀ d : CalDate, ValidDate d → getDay (addDays d n) = (getDay d + n) % 7 := by
  induction n with
  | zero =>
    intro d h
    have := getDay_lt d
    show getDay d = (getDay d + 0) % 7
    omega
  | succ k ih =>
    intro d h
    rw [addDays_succ_right, getDay_nextDay _ (addDays_valid k d h), ih d h]
    omega

/-- Weekday steps back by one (mod 7) when stepping one day backward. -/
theorem getDay_prevDay (d : CalDate) (h : ValidDate d) :
    getDay (prevDay d) = (getDay d + 6) % 7 := by
  have h1 := getDay_nextDay (prevDay d) (prevDay_valid d h)
  rw [nextDay_prevDay d h] at h1
  have h2 := getDay_lt d
  have h3 := getDay_lt (prevDay d)
  omega

/-- Weekday steps back by n (mod 7) when stepping n days backward. -/
theorem getDay_subDays (n : Nat) :
    ∀ d : CalDate, ValidDate d → getDay (subDays d n) = (getDay d + 6 * n) % 7 := by
  induction n with
  | zero =>
    intro d h
    have := getDay_lt d
    show getDay d = (getDay d + 6 * 0) % 7
    omega
  | succ k ih =>
    intro d h
    rw [subDays_succ_right, getDay_prevDay _ (subDays_valid k d h), ih d h]
    omega

/-- Setting the day via cloneDateDay keeps the receiver with day 1. -/
theorem cloneDateDay_one (d : CalDate) : cloneDateDay d 1 = ⟨d.year, d.month, 1⟩ := by
  simp [cloneDateDay, addDays]

/-- Results of cloneDateDay are always normalized dates. -/
theorem cloneDateDay_valid (d : CalDate) (hm : d.month < 12) (off : Int) :
    ValidDate (cloneDateDay d off) := by
  have hv := firstOfMonth_valid d.year d.month hm
  unfold cloneDateDay
  split_ifs
  · exact addDays_valid _ _ hv
  · exact subDays_valid _ _ hv

/-- Weekday of a grid cell in terms of the weekday of the first of the
month and the day offset. -/
theorem getDay_cloneDateDay (d : CalDate) (hm : d.month < 12) (off : Int) :
    getDay (cloneDateDay d off)
      = (((getDay (⟨d.year, d.month, 1⟩ : CalDate) : Int) + off - 1) % 7).toNat := by
  have hv := firstOfMonth_valid d.year d.month hm
  have hw := getDay_lt (⟨d.year, d.month, 1⟩ : CalDate)
  unfold cloneDateDay
  split_ifs with h1
  · rw [getDay_addDays _ _ hv]
    omega
  · rw [getDay_subDays _ _ hv]
    omega

/-- The grid always has exactly 42 cells. -/
theorem getDateArray_length (d : CalDate) : (getDateArray d).length = 42 := by
  simp only [getDateArray]
  rw [List.length_map, List.length_range]

/-- Reading position i of a map over List.range below the length gives
the function value at i. -/
theorem getD_map_range {α : Type} (n : Nat) (f : Nat → α) (i : Nat) (hi : i < n) (x : α) :
    ((List.range n).map f).getD i x = f i := by
  rw [List.getD_eq_getElem?_getD, List.getElem?_map, List.getElem?_range hi]
  rfl

/-- Reading grid cell i yields cloneDateDay of the first of the month at
day offset gridStart + i. -/
theorem getDateArray_getD (d : CalDate) (i : Nat) (hi : i < 42) :
    (getDateArray d).getD i dummyDate
      = cloneDateDay ⟨d.year, d.month, 1⟩ (gridStart d + (i : Int)) := by
  simp only [getDateArray]
  rw [getD_map_range 42 _ i hi]
  simp [gridStart, mondayOffset, cloneDateDay_one]

/-- The day offset of grid index 0 lies between -5 and 1. -/
theorem gridStart_bounds (d : CalDate) : -5 ≤ gridStart d ∧ gridStart d ≤ 1 := by
  unfold gridStart mondayOffset
  have := getDay_lt (cloneDateDay d 1)
  omega

/-- The previous month has a different month index. -/
theorem prevMonthOf_month_ne (y : Int) (m : Nat) (hm : m < 12) :
    (prevMonthOf y m).2 ≠ m := by
  unfold prevMonthOf
  split_ifs <;> simp <;> omega

/-- The next month has a different month index. -/
theorem nextMonthOf_month_ne (y : Int) (m : Nat) (hm : m < 12) :
    (nextMonthOf y m).2 ≠ m := by
  unfold nextMonthOf
  split_ifs <;> simp <;> omega

/-- The previous and next month have different month indices. -/
theorem prevMonthOf_ne_nextMonthOf (y : Int) (m : Nat) (hm : m < 12) :
    (prevMonthOf y m).2 ≠ (nextMonthOf y m).2 := by
  unfold prevMonthOf nextMonthOf
  split_ifs <;> simp <;> omega

/-- The previous month index is below 12. -/
theorem prevMonthOf_month_lt (y : Int) (m : Nat) (hm : m < 12) :
    (prevMonthOf y m).2 < 12 := by
  unfold prevMonthOf
  split_ifs <;> simp <;> omega

/-- The next month index is below 12. -/
theorem nextMonthOf_month_lt (y : Int) (m : Nat) (hm : m < 12) :
    (nextMonthOf y m).2 < 12 := by
  unfold nextMonthOf
  split_ifs <;> simp <;> omega

/-- Every grid cell is a normalized date. -/
theorem gridCell_valid (d : CalDate) (hm : d.month < 12) (i : Nat) (hi : i < 42) :
    ValidDate ((getDateArray d).getD i dummyDate) := by
  rw [getDateArray_getD d i hi]
  exact cloneDateDay_valid _ hm _

/-- Trichotomy for grid cells: each cell is the explicit date of the
previous month, the anchor month, or the next month determined by its
day offset. -/
theorem gridCell_cases (d : CalDate) (hm : d.month < 12) (i : Nat) (hi : i < 42) :
    (gridStart d + (i : Int) ≤ 0 ∧
      (getDateArray d).getD i dummyDate
        = ⟨(prevMonthOf d.year d.month).1, (prevMonthOf d.year d.month).2,
            ((daysInMonth (prevMonthOf d.year d.month).1 (prevMonthOf d.year d.month).2 : Int)
              + (gridStart d + (i : Int))).toNat⟩)
    ∨ (1 ≤ gridStart d + (i : Int)
        ∧ gridStart d + (i : Int) ≤ (daysInMonth d.year d.month : Int)
        ∧ (getDateArray d).getD i dummyDate
            = ⟨d.year, d.month, (gridStart d + (i : Int)).toNat⟩)
    ∨ ((daysInMonth d.year d.month : Int) < gridStart d + (i : Int) ∧
        (getDateArray d).getD i dummyDate
          = ⟨(nextMonthOf d.year d.month).1, (nextMonthOf d.year d.month).2,
              (gridStart d + (i : Int) - (daysInMonth d.year d.month : Int)).toNat⟩) := by
  rw [getDateArray_getD d i hi]
  have hb := gridStart_bounds d
  have hdb := daysInMonth_bounds d.year d.month
  rcases le_or_lt (gridStart d + (i : Int)) 0 with h | h
  · left
    exact ⟨h, cloneDateDay_prev _ _ (by omega) h⟩
  · rcases le_or_lt (gridStart d + (i : Int)) (daysInMonth d.year d.month) with h2 | h2
    · right; left
      exact ⟨h, h2, cloneDateDay_mid _ _ h h2⟩
    · right; right
      exact ⟨h2, cloneDateDay_next _ _ h2 (by dsimp only; omega)⟩

/-- A grid cell lies in the anchor month exactly when it agrees with the
anchor on both year and month; month-index agreement alone already forces
year agreement. -/
theorem gridCell_month_imp_year (d : CalDate) (hm : d.month < 12) (i : Nat) (hi : i < 42)
    (h : ((getDateArray d).getD i dummyDate).month = d.month) :
    ((getDateArray d).getD i dummyDate).year = d.year := by
  rcases gridCell_cases d hm i hi with ⟨h1, e1⟩ | ⟨h1, h2, e1⟩ | ⟨h1, e1⟩
  · rw [e1] at h ⊢
    exact absurd h (prevMonthOf_month_ne d.year d.month hm)
  · rw [e1]
  · rw [e1] at h ⊢
    exact absurd h (nextMonthOf_month_ne d.year d.month hm)

/-- Distinct grid positions hold distinct calendar dates. -/
theorem gridCell_inj (d : CalDate) (hm : d.month < 12) (i j : Nat)
    (hi : i < 42) (hj : j < 42)
    (hij : (getDateArray d).getD i dummyDate = (getDateArray d).getD j dummyDate) :
    i = j := by
  have hb := gridStart_bounds d
  have hdb := daysInMonth_bounds d.year d.month
  have hdbp := daysInMonth_bounds (prevMonthOf d.year d.month).1 (prevMonthOf d.year d.month).2
  have hpne := prevMonthOf_month_ne d.year d.month hm
  have hnne := nextMonthOf_month_ne d.year d.month hm
  have hpnn := prevMonthOf_ne_nextMonthOf d.year d.month hm
  rcases gridCell_cases d hm i hi with ⟨h1, e1⟩ | ⟨h1a, h1b, e1⟩ | ⟨h1, e1⟩ <;>
    rcases gridCell_cases d hm j hj with ⟨h2, e2⟩ | ⟨h2a, h2b, e2⟩ | ⟨h2, e2⟩ <;>
    rw [e1, e2] at hij <;>
    simp only [CalDate.mk.injEq] at hij <;>
    omega

/-- Consecutive grid cells are consecutive calendar days. -/
theorem gridCell_succ (d : CalDate) (hm : d.month < 12) (i : Nat) (hi : i + 1 < 42) :
    (getDateArray d).getD (i + 1) dummyDate
      = nextDay ((getDateArray d).getD i dummyDate) := by
  rw [getDateArray_getD d (i + 1) hi, getDateArray_getD d i (by omega)]
  have hcast : gridStart d + ((i + 1 : Nat) : Int) = (gridStart d + (i : Int)) + 1 := by
    push_cast
    ring
  rw [hcast, cloneDateDay_succ ⟨d.year, d.month, 1⟩ hm]

/-- Grid cell 0 always falls on a Monday (getDay = 1). -/
theorem gridCell_monday (d : CalDate) (hm : d.month < 12) :
    getDay ((getDateArray d).getD 0 dummyDate) = 1 := by
  rw [getDateArray_getD d 0 (by omega), getDay_cloneDateDay ⟨d.year, d.month, 1⟩ hm]
  dsimp only
  unfold gridStart mondayOffset
  rw [cloneDateDay_one]
  have hw := getDay_lt (⟨d.year, d.month, 1⟩ : CalDate)
  omega

/-- Grid cell 41 always falls on a Sunday (getDay = 0). -/
theorem gridCell_sunday (d : CalDate) (hm : d.month < 12) :
    getDay ((getDateArray d).getD 41 dummyDate) = 0 := by
  rw [getDateArray_getD d 41 (by omega), getDay_cloneDateDay ⟨d.year, d.month, 1⟩ hm]
  dsimp only
  unfold gridStart mondayOffset
  rw [cloneDateDay_one]
  have hw := getDay_lt (⟨d.year, d.month, 1⟩ : CalDate)
  omega

/-- isSameDate is exactly equality of the (year, month, day) triples. -/
theorem isSameDate_iff (a b : CalDate) : isSameDate a b = true ↔ a = b := by
  obtain ⟨y1, m1, d1⟩ := a
  obtain ⟨y2, m2, d2⟩ := b
  simp [isSameDate, CalDate.mk.injEq, and_assoc]

/-- After updateDayClasses, the managed state classes on a cell are
exactly the token of the new classification, whatever classes the cell
carried before. -/
theorem updateDayClasses_resets (prev : List String) (cls : DayClass) :
    (updateDayClasses prev cls).filter (fun c => managedClasses.contains c)
      = classToken cls := by
  unfold updateDayClasses resetDayClasses
  rw [List.filter_append]
  have h1 : (prev.filter fun c => ! managedClasses.contains c).filter
      (fun c => managedClasses.contains c) = [] := by
    rw [List.filter_filter]
    apply List.filter_eq_nil.mpr
    intro a ha
    cases managedClasses.contains a <;> simp
  rw [h1, List.nil_append]
  cases cls <;> rfl

/-- Each classification adds at most one class. -/
theorem classToken_length (cls : DayClass) : (classToken cls).length ≤ 1 := by
  cases cls <;> simp [classToken]

/-- Reading position i of the render output pairs grid cell i with its
classification. -/
theorem renderGrid_getD (anchor now chosen : CalDate) (starred : List String)
    (i : Nat) (hi : i < 42) :
    (renderGrid anchor now chosen starred).getD i (dummyDate, DayClass.plain)
      = ((getDateArray anchor).getD i dummyDate,
          classifyDay anchor now chosen starred
            ((getDateArray anchor).getD i dummyDate)) := by
  rw [getDateArray_getD anchor i hi]
  unfold renderGrid
  simp only [getDateArray, List.map_map]
  rw [getD_map_range 42 _ i hi]
  simp [Function.comp, gridStart, mondayOffset, cloneDateDay_one]

-- ======================================================
-- C1, C4, C7, C9, C10
-- ======================================================

/-- C1: for every anchor date, getDateArray returns exactly 42 dates,
each exactly one calendar day after the previous, all normalized, with
index 0 always a Monday (getDay = 1) and index 41 always a Sunday
(getDay = 0); in particular for the anchor 2025-08-01 (month index 7)
the grid runs from 2025-07-28 at index 0 to 2025-09-07 at index 41 with
2025-08-01 (August 1) at index 4. -/
theorem getDateArray_grid_props (d : CalDate) (hm : d.month < 12) :
    (getDateArray d).length = 42
    ∧ (∀ i : Nat, i + 1 < 42 →
        (getDateArray d).getD (i + 1) dummyDate
          = nextDay ((getDateArray d).getD i dummyDate))
    ∧ (∀ i : Nat, i < 42 → ValidDate ((getDateArray d).getD i dummyDate))
    ∧ getDay ((getDateArray d).getD 0 dummyDate) = 1
    ∧ getDay ((getDateArray d).getD 41 dummyDate) = 0
    ∧ (getDateArray ⟨2025, 7, 1⟩).getD 0 dummyDate = ⟨2025, 6, 28⟩
    ∧ (getDateArray ⟨2025, 7, 1⟩).getD 41 dummyDate = ⟨2025, 8, 7⟩
    ∧ (getDateArray ⟨2025, 7, 1⟩).getD 4 dummyDate = ⟨2025, 7, 1⟩ :=
  ⟨getDateArray_length d,
   fun i hi => gridCell_succ d hm i hi,
   fun i hi => gridCell_valid d hm i hi,
   gridCell_monday d hm,
   gridCell_sunday d hm,
   by decide, by decide, by decide⟩

/-- Witness for C1 at the concrete anchor 2025-08-01. -/
theorem getDateArray_grid_props_witness :
    ((⟨2025, 7, 1⟩ : CalDate).month < 12)
    ∧ (getDateArray (⟨2025, 7, 1⟩ : CalDate)).length = 42
    ∧ getDay ((getDateArray (⟨2025, 7, 1⟩ : CalDate)).getD 0 dummyDate) = 1
    ∧ getDay ((getDateArray (⟨2025, 7, 1⟩ : CalDate)).getD 41 dummyDate) = 0 :=
  ⟨by decide,
   (getDateArray_grid_props ⟨2025, 7, 1⟩ (by decide)).1,
   (getDateArray_grid_props ⟨2025, 7, 1⟩ (by decide)).2.2.2.1,
   (getDateArray_grid_props ⟨2025, 7, 1⟩ (by decide)).2.2.2.2.1⟩

/-- C4 (amended): clicking the header label re-renders the grid from the
construction-time snapshot dateToday; it does not re-sample the current
date, and it leaves dateDisplayed, dateChosen, dateToday and the starred
dates unchanged. -/
theorem headerClick_uses_snapshot (s : WidgetState) :
    (handleHeaderClick s).renderedAnchor = s.dateToday
    ∧ (handleHeaderClick s).dateDisplayed = s.dateDisplayed
    ∧ (handleHeaderClick s).dateChosen = s.dateChosen
    ∧ (handleHeaderClick s).dateToday = s.dateToday
    ∧ (handleHeaderClick s).starredDates = s.starredDates := by
  simp [handleHeaderClick]

/-- Counterexample for C4 as stated: with the snapshot dateToday equal
to 2025-08-31 (month index 7) and the real current date at click time
equal to 2025-09-01, the header click renders from the snapshot, which
is not the current date, so the shown grid is August 2025 and not the
real current month. -/
theorem headerClick_not_fresh :
    (handleHeaderClick
        (WidgetState.mk ⟨2025, 7, 10⟩ ⟨2025, 7, 31⟩ ⟨2025, 7, 31⟩ ⟨2025, 7, 31⟩ []
          true)).renderedAnchor = ⟨2025, 7, 31⟩
    ∧ ((⟨2025, 7, 31⟩ : CalDate) ≠ ⟨2025, 8, 1⟩)
    ∧ (⟨2025, 7, 31⟩ : CalDate).month ≠ (⟨2025, 8, 1⟩ : CalDate).month := by
  decide

/-- C7: two anchors that agree on year and month produce identical
42-cell grids, whatever their day-of-month; getDateArray reads only the
year and month of its argument (and, being a pure function of it, cannot
mutate it). -/
theorem getDateArray_day_irrelevant (d1 d2 : CalDate)
    (hy : d1.year = d2.year) (hmo : d1.month = d2.month) :
    getDateArray d1 = getDateArray d2 := by
  obtain ⟨y1, m1, day1⟩ := d1
  obtain ⟨y2, m2, day2⟩ := d2
  simp only at hy hmo
  subst hy
  subst hmo
  simp [getDateArray, cloneDateDay_one]

/-- Witness for C7: anchors 2025-08-01 and 2025-08-31 give the same
grid. -/
theorem getDateArray_day_irrelevant_witness :
    ((⟨2025, 7, 1⟩ : CalDate).year = (⟨2025, 7, 31⟩ : CalDate).year)
    ∧ ((⟨2025, 7, 1⟩ : CalDate).month = (⟨2025, 7, 31⟩ : CalDate).month)
    ∧ getDateArray ⟨2025, 7, 1⟩ = getDateArray ⟨2025, 7, 31⟩ :=
  ⟨rfl, rfl, getDateArray_day_irrelevant ⟨2025, 7, 1⟩ ⟨2025, 7, 31⟩ rfl rfl⟩

/-- C9: with no onDayClick callback registered, a day-cell click is a
complete no-op: the state (dateChosen, dateDisplayed, rendered anchor,
starred dates) is unchanged, the callback is never invoked, and no
delayed re-render is scheduled. -/
theorem dayClick_no_callback_noop (tz : Int) (s : WidgetState) (cellDate : CalDate)
    (h : s.hasOnDayClick = false) :
    handleDayClick tz s cellDate = ⟨s, [], false⟩ := by
  simp [handleDayClick, h]

/-- Witness for C9 at a concrete state with no callback registered. -/
theorem dayClick_no_callback_noop_witness :
    ((WidgetState.mk ⟨2025, 7, 10⟩ ⟨2025, 7, 15⟩ ⟨2025, 7, 15⟩ ⟨2025, 7, 15⟩ []
        false).hasOnDayClick = false)
    ∧ handleDayClick 0
        (WidgetState.mk ⟨2025, 7, 10⟩ ⟨2025, 7, 15⟩ ⟨2025, 7, 15⟩ ⟨2025, 7, 15⟩ [] false)
        ⟨2025, 7, 3⟩
      = ⟨WidgetState.mk ⟨2025, 7, 10⟩ ⟨2025, 7, 15⟩ ⟨2025, 7, 15⟩ ⟨2025, 7, 15⟩ [] false,
          [], false⟩ :=
  ⟨rfl, dayClick_no_callback_noop 0 _ _ rfl⟩

/-- C10: the delayed re-render scheduled by a day click renders the grid
from dateChosen while leaving the stored month anchor dateDisplayed
unchanged, so a subsequent navigateMonth moves relative to the month
that was displayed before the click. -/
theorem delayedRender_keeps_displayed (tz : Int) (s : WidgetState) (cellDate : CalDate)
    (change : Int) (h : s.hasOnDayClick = true) :
    (fireDelayedRender (handleDayClick tz s cellDate).state).renderedAnchor
        = (fireDelayedRender (handleDayClick tz s cellDate).state).dateChosen
    ∧ (fireDelayedRender (handleDayClick tz s cellDate).state).dateChosen
        = jsParseLocalDate tz cellDate
    ∧ (fireDelayedRender (handleDayClick tz s cellDate).state).dateDisplayed
        = s.dateDisplayed
    ∧ (navigateMonth (fireDelayedRender (handleDayClick tz s cellDate).state)
          change).dateDisplayed
        = (navigateMonth s change).dateDisplayed := by
  simp [handleDayClick, fireDelayedRender, navigateMonth, h]

/-- Witness for C10 at a concrete state, click and navigation delta. -/
theorem delayedRender_keeps_displayed_witness :
    ((WidgetState.mk ⟨2025, 7, 10⟩ ⟨2025, 7, 15⟩ ⟨2025, 6, 20⟩ ⟨2025, 6, 20⟩ []
        true).hasOnDayClick = true)
    ∧ (fireDelayedRender (handleDayClick 0
          (WidgetState.mk ⟨2025, 7, 10⟩ ⟨2025, 7, 15⟩ ⟨2025, 6, 20⟩ ⟨2025, 6, 20⟩ [] true)
          ⟨2025, 7, 3⟩).state).dateDisplayed = ⟨2025, 6, 20⟩
    ∧ (navigateMonth (fireDelayedRender (handleDayClick 0
          (WidgetState.mk ⟨2025, 7, 10⟩ ⟨2025, 7, 15⟩ ⟨2025, 6, 20⟩ ⟨2025, 6, 20⟩ [] true)
          ⟨2025, 7, 3⟩).state) 1).dateDisplayed
        = (navigateMonth
            (WidgetState.mk ⟨2025, 7, 10⟩ ⟨2025, 7, 15⟩ ⟨2025, 6, 20⟩ ⟨2025, 6, 20⟩ [] true)
            1).dateDisplayed :=
  ⟨rfl,
   (delayedRender_keeps_displayed 0 _ ⟨2025, 7, 3⟩ 1 rfl).2.2.1,
   (delayedRender_keeps_displayed 0 _ ⟨2025, 7, 3⟩ 1 rfl).2.2.2⟩

-- ======================================================
-- C2 and C3
-- ======================================================

/-- C2: at every render, grid cell i is paired with exactly one
classification computed by first-match priority over the semantic
conditions: dimmed exactly when the cell's (year, month) differs from
the anchor's (year, month), else today exactly when the cell equals the
current date sampled at render time, else marked exactly when it equals
the chosen date, else starred exactly when its YYYY-MM-DD key is in
starredDates, else no class; and the per-cell class-list update first
removes all managed state classes, so after the update the managed
classes are exactly the one emitted token (at most one), whatever
classes previous renders left. -/
theorem updateCalendar_classification (anchor now chosen : CalDate)
    (starred : List String) (hm : anchor.month < 12) (i : Nat) (hi : i < 42) :
    (renderGrid anchor now chosen starred).getD i (dummyDate, DayClass.plain)
      = (gridCellAt anchor i, cellClassAt anchor now chosen starred i)
    ∧ cellClassAt anchor now chosen starred i
        = (if ¬((gridCellAt anchor i).year = anchor.year
                ∧ (gridCellAt anchor i).month = anchor.month)
            then DayClass.dimmed
           else if gridCellAt anchor i = now then DayClass.today
           else if gridCellAt anchor i = chosen then DayClass.marked
           else if starred.contains (toShort (gridCellAt anchor i)) then DayClass.starred
           else DayClass.plain)
    ∧ (∀ prev : List String,
        (updateDayClasses prev (cellClassAt anchor now chosen starred i)).filter
            (fun c => managedClasses.contains c)
          = classToken (cellClassAt anchor now chosen starred i))
    ∧ (classToken (cellClassAt anchor now chosen starred i)).length ≤ 1 := by
  refine ⟨?_, ?_, fun prev => updateDayClasses_resets prev _, classToken_length _⟩
  · rw [renderGrid_getD anchor now chosen starred i hi]
    rfl
  · unfold cellClassAt gridCellAt classifyDay
    have himp := gridCell_month_imp_year anchor hm i hi
    by_cases h1 : ((getDateArray anchor).getD i dummyDate).month = anchor.month
    · have hy := himp h1
      rw [if_neg (not_not_intro h1), if_neg (not_not_intro ⟨hy, h1⟩)]
      by_cases h2 : (getDateArray anchor).getD i dummyDate = now
      · rw [if_pos ((isSameDate_iff _ _).mpr h2), if_pos h2]
      · rw [if_neg (fun hc => h2 ((isSameDate_iff _ _).mp hc)), if_neg h2]
        by_cases h3 : (getDateArray anchor).getD i dummyDate = chosen
        · rw [if_pos ((isSameDate_iff _ _).mpr h3), if_pos h3]
        · rw [if_neg (fun hc => h3 ((isSameDate_iff _ _).mp hc)), if_neg h3]
    · rw [if_pos h1, if_pos (fun hc => h1 hc.2)]

/-- Witness for C2 at a concrete render of August 2025. -/
theorem updateCalendar_classification_witness :
    ((⟨2025, 7, 1⟩ : CalDate).month < 12)
    ∧ (6 < 42)
    ∧ (classToken (cellClassAt ⟨2025, 7, 1⟩ ⟨2025, 7, 15⟩ ⟨2025, 7, 10⟩
        ["2025-08-03"] 6)).length ≤ 1 :=
  ⟨by decide, by decide,
   (updateCalendar_classification ⟨2025, 7, 1⟩ ⟨2025, 7, 15⟩ ⟨2025, 7, 10⟩
      ["2025-08-03"] (by decide) 6 (by decide)).2.2.2⟩

/-- C3 (amended): navigateMonth(change) sets the displayed date through
setMonth, whose target year and month are the old (year, month) plus
change months normalized across year boundaries with floor division;
whenever the stored day-of-month fits in the target month (in
particular whenever it is at most 28, and in the December-rollover
scenario of navigating -1 from 2025-01-15), the new displayed
(year, month) is exactly the old one plus change months and the
day-of-month is kept; the widget then re-renders from the new displayed
date. When the stored day-of-month exceeds the target month's length,
setMonth overflows into the following month instead (see the
counterexample), so the claim as stated does not hold for all anchors. -/
theorem navigateMonth_adds_months (s : WidgetState) (change : Int)
    (hd1 : 1 ≤ s.dateDisplayed.day)
    (hd2 : s.dateDisplayed.day ≤ daysInMonth
        (s.dateDisplayed.year + ((s.dateDisplayed.month : Int) + change) / 12)
        ((((s.dateDisplayed.month : Int) + change) % 12).toNat)) :
    (navigateMonth s change).dateDisplayed
        = ⟨s.dateDisplayed.year + ((s.dateDisplayed.month : Int) + change) / 12,
            (((s.dateDisplayed.month : Int) + change) % 12).toNat,
            s.dateDisplayed.day⟩
    ∧ (navigateMonth s change).renderedAnchor
        = (navigateMonth s change).dateDisplayed := by
  constructor
  · show jsSetMonth s.dateDisplayed ((s.dateDisplayed.month : Int) + change) = _
    unfold jsSetMonth
    rw [cloneDateDay_mid _ _ (by omega) (by dsimp only; omega)]
    simp only [CalDate.mk.injEq, eq_self_iff_true, true_and, and_true]
    omega
  · rfl

/-- Witness for C3: navigating -1 month from displayed date 2025-01-15
yields December 2024 (year rollover), day kept. -/
theorem navigateMonth_adds_months_witness :
    (1 ≤ (WidgetState.mk ⟨2025, 0, 15⟩ ⟨2025, 0, 15⟩ ⟨2025, 0, 15⟩ ⟨2025, 0, 15⟩ []
        false).dateDisplayed.day)
    ∧ (navigateMonth
        (WidgetState.mk ⟨2025, 0, 15⟩ ⟨2025, 0, 15⟩ ⟨2025, 0, 15⟩ ⟨2025, 0, 15⟩ [] false)
        (-1)).dateDisplayed = ⟨2024, 11, 15⟩ := by
  refine ⟨by decide, ?_⟩
  have h := navigateMonth_adds_months
    (WidgetState.mk ⟨2025, 0, 15⟩ ⟨2025, 0, 15⟩ ⟨2025, 0, 15⟩ ⟨2025, 0, 15⟩ [] false)
    (-1) (by decide) (by decide)
  rw [h.1]
  decide

/-- Counterexample for C3 as stated: from displayed date 2025-01-31,
navigateMonth(+1) lands on 2025-03-03 (month index 2, March), not
February, because setMonth overflows the day 31 past February's 28
days. -/
theorem navigateMonth_day31_overflow :
    (navigateMonth
        (WidgetState.mk ⟨2025, 0, 15⟩ ⟨2025, 0, 15⟩ ⟨2025, 0, 31⟩ ⟨2025, 0, 31⟩ [] false)
        1).dateDisplayed = ⟨2025, 2, 3⟩
    ∧ ((⟨2025, 2, 3⟩ : CalDate).month ≠ 1) := by
  decide

-- ======================================================
-- C5, C6, C8
-- ======================================================

/-- C5 (amended): with an onDayClick callback registered, in an
environment whose UTC offset is nonnegative (date-only strings parse as
UTC midnight, see jsParseLocalDate), clicking a day cell sets dateChosen
to that cell's date, invokes the callback exactly once with that date,
and schedules one delayed re-render; when the delayed re-render fires it
renders from dateChosen, and provided the clicked date is not the real
current date at that render, the cell holding the clicked date is
classified marked and it is the only such cell: a cell is marked exactly
when it holds the clicked date, the clicked date occurs in the new grid,
and it occurs at exactly one position. -/
theorem dayClick_marks_clicked (tz : Int) (s : WidgetState) (cellDate now : CalDate)
    (hcb : s.hasOnDayClick = true) (htz0 : 0 ≤ tz) (htz1 : tz < 1440)
    (hv : ValidDate cellDate) (hne : cellDate ≠ now) :
    (handleDayClick tz s cellDate).state.dateChosen = cellDate
    ∧ (handleDayClick tz s cellDate).callbackCalls = [cellDate]
    ∧ (handleDayClick tz s cellDate).callbackCalls.length ≤ 1
    ∧ (handleDayClick tz s cellDate).scheduledRender = true
    ∧ (fireDelayedRender (handleDayClick tz s cellDate).state).renderedAnchor = cellDate
    ∧ (∀ i : Nat, i < 42 →
        (((renderGrid
              (fireDelayedRender (handleDayClick tz s cellDate).state).renderedAnchor
              now
              (fireDelayedRender (handleDayClick tz s cellDate).state).dateChosen
              (fireDelayedRender (handleDayClick tz s cellDate).state).starredDates).getD i
            (dummyDate, DayClass.plain)).2 = DayClass.marked
          ↔ (getDateArray cellDate).getD i dummyDate = cellDate))
    ∧ (∃ i : Nat, i < 42 ∧ (getDateArray cellDate).getD i dummyDate = cellDate)
    ∧ (∀ i j : Nat, i < 42 → j < 42 →
        (getDateArray cellDate).getD i dummyDate = cellDate →
        (getDateArray cellDate).getD j dummyDate = cellDate → i = j) := by
  have hparse : jsParseLocalDate tz cellDate = cellDate := by
    unfold jsParseLocalDate
    rw [if_neg (by omega)]
  have hstate : fireDelayedRender (handleDayClick tz s cellDate).state
      = { s with dateChosen := cellDate, renderedAnchor := cellDate } := by
    simp [handleDayClick, fireDelayedRender, hcb, hparse]
  refine ⟨by simp [handleDayClick, hcb, hparse],
    by simp [handleDayClick, hcb, hparse],
    by simp [handleDayClick, hcb],
    by simp [handleDayClick, hcb],
    by rw [hstate],
    ?_, ?_, ?_⟩
  · intro i hi
    rw [hstate]
    dsimp only
    rw [renderGrid_getD cellDate now cellDate s.starredDates i hi]
    dsimp only
    constructor
    · intro hcls
      unfold classifyDay at hcls
      split_ifs at hcls with g1 g2 g3 g4 <;>
        first
        | exact (isSameDate_iff _ _).mp g3
        | exact absurd hcls (by decide)
    · intro heq
      rw [heq]
      unfold classifyDay
      rw [if_neg (not_not_intro rfl)]
      rw [if_neg (fun hc => hne ((isSameDate_iff _ _).mp hc))]
      rw [if_pos ((isSameDate_iff _ _).mpr rfl)]
  · have hmo : mondayOffset cellDate < 7 := by
      unfold mondayOffset
      omega
    have hdb := daysInMonth_bounds cellDate.year cellDate.month
    have hd1 := hv.2.1
    have hd2 := hv.2.2
    have hidx : mondayOffset cellDate + (cellDate.day - 1) < 42 := by omega
    refine ⟨mondayOffset cellDate + (cellDate.day - 1), hidx, ?_⟩
    have hoff : gridStart cellDate
        + ((mondayOffset cellDate + (cellDate.day - 1) : Nat) : Int)
        = (cellDate.day : Int) := by
      unfold gridStart
      omega
    rw [getDateArray_getD cellDate _ hidx, hoff]
    rw [cloneDateDay_mid _ _ (by omega) (by dsimp only; omega)]
    rcases cellDate with ⟨cy, cm, cd⟩
    simp

  · exact fun i j hi hj hei hej =>
      gridCell_inj cellDate hv.1 i j hi hj (by rw [hei, hej])

/-- Witness for C5: at UTC offset 0, clicking 2025-08-03 with the
callback registered while the current date is 2025-08-15. -/
theorem dayClick_marks_clicked_witness :
    ((WidgetState.mk ⟨2025, 7, 10⟩ ⟨2025, 7, 15⟩ ⟨2025, 7, 15⟩ ⟨2025, 7, 15⟩ []
        true).hasOnDayClick = true)
    ∧ ValidDate (⟨2025, 7, 3⟩ : CalDate)
    ∧ ((⟨2025, 7, 3⟩ : CalDate) ≠ ⟨2025, 7, 15⟩)
    ∧ (handleDayClick 0
        (WidgetState.mk ⟨2025, 7, 10⟩ ⟨2025, 7, 15⟩ ⟨2025, 7, 15⟩ ⟨2025, 7, 15⟩ [] true)
        ⟨2025, 7, 3⟩).state.dateChosen = ⟨2025, 7, 3⟩
    ∧ (handleDayClick 0
        (WidgetState.mk ⟨2025, 7, 10⟩ ⟨2025, 7, 15⟩ ⟨2025, 7, 15⟩ ⟨2025, 7, 15⟩ [] true)
        ⟨2025, 7, 3⟩).callbackCalls = [⟨2025, 7, 3⟩] :=
  ⟨rfl, by decide, by decide,
   (dayClick_marks_clicked 0 _ ⟨2025, 7, 3⟩ ⟨2025, 7, 15⟩ rfl (by decide) (by decide) (by decide) (by decide)).1,
   (dayClick_marks_clicked 0 _ ⟨2025, 7, 3⟩ ⟨2025, 7, 15⟩ rfl (by decide) (by decide) (by decide) (by decide)).2.1⟩

/-- Counterexample for C5 as stated: when the clicked date is the real
current date at re-render time (here 2025-08-15), the delayed re-render
classifies that cell today, not marked, and no cell of the grid is
marked, so the re-render does not show the clicked cell as marked. -/
theorem dayClick_today_not_marked :
    (((renderGrid
          (fireDelayedRender (handleDayClick 0
            (WidgetState.mk ⟨2025, 7, 10⟩ ⟨2025, 7, 15⟩ ⟨2025, 7, 15⟩ ⟨2025, 7, 15⟩ [] true)
            ⟨2025, 7, 15⟩).state).renderedAnchor
          ⟨2025, 7, 15⟩
          (fireDelayedRender (handleDayClick 0
            (WidgetState.mk ⟨2025, 7, 10⟩ ⟨2025, 7, 15⟩ ⟨2025, 7, 15⟩ ⟨2025, 7, 15⟩ [] true)
            ⟨2025, 7, 15⟩).state).dateChosen
          (fireDelayedRender (handleDayClick 0
            (WidgetState.mk ⟨2025, 7, 10⟩ ⟨2025, 7, 15⟩ ⟨2025, 7, 15⟩ ⟨2025, 7, 15⟩ [] true)
            ⟨2025, 7, 15⟩).state).starredDates).getD 18
        (dummyDate, DayClass.plain))
      = (⟨2025, 7, 15⟩, DayClass.today))
    ∧ (∀ i : Nat, i < 42 →
        (((renderGrid
              (fireDelayedRender (handleDayClick 0
                (WidgetState.mk ⟨2025, 7, 10⟩ ⟨2025, 7, 15⟩ ⟨2025, 7, 15⟩ ⟨2025, 7, 15⟩ []
                  true)
                ⟨2025, 7, 15⟩).state).renderedAnchor
              ⟨2025, 7, 15⟩
              (fireDelayedRender (handleDayClick 0
                (WidgetState.mk ⟨2025, 7, 10⟩ ⟨2025, 7, 15⟩ ⟨2025, 7, 15⟩ ⟨2025, 7, 15⟩ []
                  true)
                ⟨2025, 7, 15⟩).state).dateChosen
              (fireDelayedRender (handleDayClick 0
                (WidgetState.mk ⟨2025, 7, 10⟩ ⟨2025, 7, 15⟩ ⟨2025, 7, 15⟩ ⟨2025, 7, 15⟩ []
                  true)
                ⟨2025, 7, 15⟩).state).starredDates).getD i
            (dummyDate, DayClass.plain)).2 ≠ DayClass.marked)) := by
  decide

/-- C6 (amended): toShort formats the local calendar components as a
zero-padded YYYY-MM-DD string (so it does not depend on the time of
day), and reparsing its output with new Date and reformatting yields the
identical string in every environment whose UTC offset is nonnegative;
at negative UTC offsets the reparse lands on the previous local day (see
the counterexample), so the round trip as stated does not hold there. -/
theorem toShort_round_trip (d : CalDate) (tz : Int)
    (htz0 : 0 ≤ tz) (htz1 : tz < 1440) :
    toShort (jsParseLocalDate tz d) = toShort d
    ∧ toShort ⟨2025, 0, 3⟩ = "2025-01-03" := by
  constructor
  · unfold jsParseLocalDate
    rw [if_neg (by omega)]
  · decide

/-- Witness for C6 at the date 2025-01-03 and UTC offset 0. -/
theorem toShort_round_trip_witness :
    ((0 : Int) ≤ 0) ∧ ((0 : Int) < 1440)
    ∧ toShort (jsParseLocalDate 0 ⟨2025, 0, 3⟩) = toShort ⟨2025, 0, 3⟩
    ∧ toShort ⟨2025, 0, 3⟩ = "2025-01-03" :=
  ⟨by decide, by decide,
   (toShort_round_trip ⟨2025, 0, 3⟩ 0 (by decide) (by decide)).1,
   (toShort_round_trip ⟨2025, 0, 3⟩ 0 (by decide) (by decide)).2⟩

/-- Counterexample for C6 as stated: at UTC offset -300 minutes, the
date-only string 2025-01-03 parses as UTC midnight, whose local date is
2025-01-02, so reformatting does not reproduce the original string. -/
theorem toShort_round_trip_negative_offset :
    toShort (jsParseLocalDate (-300) ⟨2025, 0, 3⟩) = "2025-01-02"
    ∧ ("2025-01-02" ≠ "2025-01-03") := by
  decide

/-- C8: with the database linked, save of non-empty-trim strings
followed by load of the same key resolves success with exactly the saved
value; load of a never-saved key resolves success false with the message
Data was nullish; and neither save nor load ever rejects: whatever state
they run in and whichever IndexedDB event fires, they resolve, and every
failure result carries a message. -/
theorem simpleDatabase_contract (store : List (String × String)) (key value : String)
    (hk : ¬ jsTrim key = "") (hval : ¬ jsTrim value = "") :
    ((SimpleDatabase.mk (some store)).save key value IDBOutcome.ok).2
        = { success := true }
    ∧ (((SimpleDatabase.mk (some store)).save key value IDBOutcome.ok).1.load key
          IDBOutcome.ok).2
        = { success := true, data := some value }
    ∧ (∀ k : String, ¬ jsTrim k = "" → dbGet store k = none →
        ((SimpleDatabase.mk (some store)).load k IDBOutcome.ok).2
          = { success := false, message := some "Data was nullish" })
    ∧ (∀ (sdb : SimpleDatabase) (k v : String) (oc : IDBOutcome),
        ((sdb.save k v oc).2.success = false → (sdb.save k v oc).2.message.isSome = true)
        ∧ ((sdb.load k oc).2.success = false → (sdb.load k oc).2.message.isSome = true)) := by
  have hvs : validString [key, value] = true := by
    simp [validString, hk, hval]
  have hvk : validString [key] = true := by
    simp [validString, hk]
  have hget : dbGet (dbPut store key value) key = some value := by
    unfold dbGet dbPut
    simp [List.find?]
  refine ⟨?_, ?_, ?_, ?_⟩
  · simp [SimpleDatabase.save, hvs]
  · simp [SimpleDatabase.save, SimpleDatabase.load, hvs, hvk, hget]
  · intro k hk2 hnone
    have hvk2 : validString [k] = true := by simp [validString, hk2]
    simp [SimpleDatabase.load, hvk2, hnone]
  · intro sdb k v oc
    obtain ⟨odb⟩ := sdb
    constructor
    · rcases odb with _ | st
      · simp [SimpleDatabase.save]
      · by_cases hv2 : validString [k, v] = true
        · cases oc <;> simp [SimpleDatabase.save, hv2]
        · simp [SimpleDatabase.save, Bool.eq_false_iff.mpr hv2]
    · rcases odb with _ | st
      · simp [SimpleDatabase.load]
      · by_cases hv2 : validString [k] = true
        · cases oc <;> cases hg : dbGet st k <;> simp [SimpleDatabase.load, hv2, hg]
        · simp [SimpleDatabase.load, Bool.eq_false_iff.mpr hv2]

/-- Witness for C8: a round trip of the key 2025-08-03 and the value
note text on an empty store. -/
theorem simpleDatabase_contract_witness :
    (¬ jsTrim "2025-08-03" = "") ∧ (¬ jsTrim "note text" = "")
    ∧ (((SimpleDatabase.mk (some [])).save "2025-08-03" "note text" IDBOutcome.ok).1.load
          "2025-08-03" IDBOutcome.ok).2
        = { success := true, data := some "note text" } :=
  ⟨by decide, by decide,
   (simpleDatabase_contract [] "2025-08-03" "note text" (by decide) (by decide)).2.1⟩

end CalendarDemo
